import Mathlib

/-!
Verification of the debounce-and-exactly-once-dispatch coordinator of the
`ldcc_ig_dm_manager` repository, a webhook-driven Instagram DM automation
layer.  The definitions below are a shallow embedding of the TypeScript
sources:

* `src/services/messageStore.ts` — Firestore message store (the per-message
  status model: `claimPendingMessages`, `markProcessedAndCheckPending`,
  `updateMessageStatus`, `getConversationHistory`) and the Cloud Tasks
  delayed dispatcher (`scheduleProcessing`).
* `src/functions/processMessage.ts` — the Cloud Task callback that claims
  pending messages, invokes the agent flow, and either marks the claimed
  messages processed or resets them on failure.
* `src/functions/webhookHandler.ts` — webhook signature validation and the
  GET verification handshake.
* `src/flows/dmAgent.ts` — the agent flow and its catch-all error handling.
* `src/tools/firestore.ts` — the `check_last_notification` cooldown tool.

A Firestore transaction executes its reads against a consistent snapshot of
the database while its writes are buffered and applied atomically at commit.
The firebase-admin client additionally rejects any read issued after a write
has been buffered in the same transaction ("Firestore transactions require
all reads to be executed before all writes"), throwing before anything is
committed.  Each transaction is therefore embedded as a pure function from
the store state (the list of message documents of one conversation thread)
to a result together with the post-commit store state; a transaction that
trips the read-after-write rule is embedded as `Except.error` with the
store unchanged.  External effects — the hosted LLM, the Instagram Graph
API, the Cloud Tasks enqueue — are modelled as explicit parameters or
`Except` outcomes.
-/

namespace DmManager

/-- Message status enum from `src/types` (`MessageStatus`): exactly one of
pending / processing / processed / failed. -/
inductive MessageStatus where
  | pending
  | processing
  | processed
  | failed
deriving DecidableEq, Repr

/-- Message type union from `src/types` (`InstagramMessage.messageType`). -/
inductive InstagramMessageType where
  | text
  | image
  | video
  | audio
  | file
  | share
  | story_mention
  | story_reply
  | reel
  | ig_reel
  | other
deriving DecidableEq, Repr

/-- `InstagramMessage` from `src/types`. -/
structure InstagramMessage where
  id : String
  senderId : String
  recipientId : String
  text : String
  timestamp : Nat
  messageType : InstagramMessageType
  replyToMessageId : Option String := none
deriving DecidableEq, Repr

/-- `StoredMessage` document from `src/types`: one Firestore document in
`conversations/(threadId)/messages/(mid)`. -/
structure StoredMessage where
  id : String
  conversationId : String
  message : InstagramMessage
  status : MessageStatus
  createdAt : Nat
  updatedAt : Nat
  processedAt : Option Nat := none
  error : Option String := none
deriving DecidableEq, Repr

/-- The messages subcollection of one conversation thread, as a list of
documents.  Firestore keys documents by id, so a well-formed store has
pairwise-distinct `id` fields (`Nodup` hypotheses below). -/
abbrev Store := List StoredMessage

/-- Firestore `orderBy("createdAt", "asc")` comparison. -/
def createdLe (a b : StoredMessage) : Prop := a.createdAt ≤ b.createdAt

/-- Firestore `orderBy("createdAt", "desc")` comparison. -/
def createdGe (a b : StoredMessage) : Prop := b.createdAt ≤ a.createdAt

instance : DecidableRel createdLe := fun a b => Nat.decLe _ _

instance : DecidableRel createdGe := fun a b => Nat.decLe _ _

instance : IsTotal StoredMessage createdLe :=
  ⟨fun a b => Nat.le_total a.createdAt b.createdAt⟩

instance : IsTrans StoredMessage createdLe :=
  ⟨fun _ _ _ h h' => Nat.le_trans h h'⟩

instance : IsTotal StoredMessage createdGe :=
  ⟨fun a b => Nat.le_total b.createdAt a.createdAt⟩

instance : IsTrans StoredMessage createdGe :=
  ⟨fun _ _ _ h h' => Nat.le_trans h' h⟩

/-- A query `where("status", "==", st).orderBy("createdAt", "asc")` over the
thread's messages subcollection. -/
def queryByStatusAsc (st : MessageStatus) (s : Store) : List StoredMessage :=
  List.insertionSort createdLe (s.filter (fun m => m.status = st))

/-- A query `where("status", "==", st).orderBy("createdAt", "desc")` over the
thread's messages subcollection. -/
def queryByStatusDesc (st : MessageStatus) (s : Store) : List StoredMessage :=
  List.insertionSort createdGe (s.filter (fun m => m.status = st))

/-- Whether any message of the thread is in a given status
(the `.limit(1)` existence probe of `claimPendingMessages`). -/
def anyWithStatus (st : MessageStatus) (s : Store) : Bool :=
  s.any (fun m => m.status = st)

/-- `claimPendingMessages` from `src/services/messageStore.ts` (lines
212-271).  One atomic transaction: if any message of the thread is
`PROCESSING`, return `[]` and leave the store unchanged; otherwise read the
pending messages ordered by `createdAt` ascending, and if there are any,
return them (as read, i.e. still carrying their pre-claim data) while
marking each of them `PROCESSING` with `updatedAt := now`.  Returns the
claimed messages and the post-commit store. -/
def claimPendingMessages (now : Nat) (s : Store) :
    List StoredMessage × Store :=
  if anyWithStatus .processing s then
    ([], s)
  else
    let pending := queryByStatusAsc .pending s
    if pending.isEmpty then
      ([], s)
    else
      (pending,
        s.map (fun m =>
          if m.status = .pending then
            { m with status := .processing, updatedAt := now }
          else m))

/-- `updateMessageStatus` from `src/services/messageStore.ts` (lines
281-322): a batch update setting `status` and `updatedAt` on every document
whose id is in `messageIds`, additionally stamping `processedAt` when the
new status is `PROCESSED`, and recording `error` when one is supplied. -/
def updateMessageStatus (now : Nat) (messageIds : List String)
    (st : MessageStatus) (err : Option String) (s : Store) : Store :=
  s.map (fun m =>
    if m.id ∈ messageIds then
      { m with
        status := st
        updatedAt := now
        processedAt := if st = .processed then some now else m.processedAt
        error := match err with | some e => some e | none => m.error }
    else m)

/-- The read-after-write rejection thrown by the firebase-admin Firestore
client when a transaction reads after it has buffered a write. -/
def READ_AFTER_WRITE_ERROR_MSG : String :=
  "Firestore transactions require all reads to be executed before all writes."

/-- `markProcessedAndCheckPending` from `src/services/messageStore.ts`
(lines 332-372).  Inside one `runTransaction` the source first buffers a
`transaction.update` (status `PROCESSED`, `updatedAt`, `processedAt`) for
every id in `messageIds` and only then issues the `transaction.get` of the
still-pending query.  The firebase-admin client forbids reads after
buffered writes in a transaction, so with a non-empty `messageIds` the
`get` throws before anything is committed and the function rejects with
the read-after-write error, the store unchanged.  With an empty
`messageIds` the update loop buffers nothing, the read is legal, and the
function returns the pending messages ordered by `createdAt` ascending
together with the (unchanged) store. -/
def markProcessedAndCheckPending (now : Nat) (messageIds : List String)
    (s : Store) : Except String (List StoredMessage × Store) :=
  match messageIds with
  | [] => .ok (queryByStatusAsc .pending s, s)
  | _ :: _ => .error READ_AFTER_WRITE_ERROR_MSG

/-- `getConversationHistory` from `src/services/messageStore.ts` (lines
381-398): the `PROCESSED` messages ordered by `createdAt` descending,
limited to `limit` documents, then reversed into chronological
(oldest-first) order. -/
def getConversationHistory (limit : Nat) (s : Store) : List StoredMessage :=
  ((queryByStatusDesc .processed s).take limit).reverse

/-! ### Delayed dispatcher (`scheduleProcessing`, messageStore.ts 100-177) -/

/-- Debounce delay bounds from `messageStore.ts` (`MIN_DELAY_SECONDS`,
`MAX_DELAY_SECONDS`); `getRandomDelay` draws uniformly from this range. -/
def MIN_DELAY_SECONDS : Nat := 5

def MAX_DELAY_SECONDS : Nat := 15

/-- The thread-id sanitisation `threadId.replace(/[^a-zA-Z0-9-_]/g, "_")`
applied when building the Cloud Tasks task name. -/
def sanitizeThreadId (threadId : String) : String :=
  threadId.map (fun c =>
    if c.isAlphanum ∨ c = '-' ∨ c = '_' then c else '_')

/-- The Cloud Tasks task built by `scheduleProcessing` (messageStore.ts
119-148).  `now` is the wall-clock time (`Date.now()`) at which the call
runs and `delaySeconds` the randomized debounce delay; the task `name` — the
deduplication key — is derived from the queue path and the sanitised thread
id alone. -/
structure TaskSpec where
  name : String
  url : String
  scheduleTimeSeconds : Nat
deriving DecidableEq, Repr

def buildTask (parent url threadId : String) (now delaySeconds : Nat) :
    TaskSpec :=
  { name := parent ++ "/tasks/process-" ++ sanitizeThreadId threadId
    url := url
    scheduleTimeSeconds := (now + delaySeconds * 1000) / 1000 }

/-- gRPC status code `ALREADY_EXISTS` from `@grpc/grpc-js`. -/
def GRPC_ALREADY_EXISTS : Nat := 6

/-- Outcome of the `client.createTask` call. -/
inductive EnqueueOutcome where
  | created
  | failed (code : Nat) (message : String)
deriving DecidableEq, Repr

/-- The error handling of `scheduleProcessing` (messageStore.ts 150-177):
in mock mode the enqueue is skipped entirely; otherwise a rejection with
gRPC code `ALREADY_EXISTS` is swallowed (debouncing treated as success)
while any other failure is rethrown to the caller. -/
def scheduleProcessing (mockMode : Bool) (outcome : EnqueueOutcome) :
    Except (Nat × String) Unit :=
  if mockMode then .ok ()
  else
    match outcome with
    | .created => .ok ()
    | .failed code msg =>
      if code = GRPC_ALREADY_EXISTS then .ok () else .error (code, msg)

/-! ### Webhook ingress (`webhookHandler.ts`) -/

/-- `validateSignature` from `src/functions/webhookHandler.ts` (lines
28-52).  `hmacSha256Hex secret payload` abstracts
`crypto.createHmac("sha256", secret).update(payload).digest("hex")`.
Returns `false` when the signature header is absent or empty or the app
secret is empty (JS falsiness of `undefined` and `""`); otherwise compares
the header against `"sha256=" ++ hmac` — a length check followed by
`crypto.timingSafeEqual`, which on equal-length inputs is byte equality. -/
def validateSignature (hmacSha256Hex : String → String → String)
    (appSecret : String) (payload : String) (signature : Option String) :
    Bool :=
  match signature with
  | none => false
  | some sig =>
    if sig = "" ∨ appSecret = "" then false
    else
      let expected := "sha256=" ++ hmacSha256Hex appSecret payload
      decide (sig.length = expected.length) && decide (sig = expected)

/-- The signature gate of the POST branch of `instagramWebhook`
(webhookHandler.ts 261-271): validation runs only when
`INSTAGRAM_APP_SECRET` is non-empty and the process is not in emulator
mode; otherwise the request proceeds unchecked.  Returns `true` when the
request goes on to payload parsing, message storage and scheduling. -/
def webhookPostPassesSignatureGate (hmacSha256Hex : String → String → String)
    (appSecret : String) (emulatorMode : Bool) (rawBody : String)
    (signature : Option String) : Bool :=
  if appSecret ≠ "" ∧ ¬emulatorMode then
    validateSignature hmacSha256Hex appSecret rawBody signature
  else true

/-- An HTTP response as produced by the webhook handlers. -/
structure HttpResponse where
  status : Nat
  body : String
deriving DecidableEq, Repr

/-- The GET verification branch of `instagramWebhook` (webhookHandler.ts
216-238): echo the `hub.challenge` query value with status 200 when
`hub.mode` is `"subscribe"` and `hub.verify_token` equals the configured
token, else respond 403 `"Forbidden"`.  An absent challenge echoes an empty
body (`send(undefined)`). -/
def handleWebhookVerification (verifyToken : String)
    (mode token challenge : Option String) : HttpResponse :=
  if mode = some "subscribe" ∧ token = some verifyToken then
    { status := 200, body := challenge.getD "" }
  else
    { status := 403, body := "Forbidden" }

/-! ### Agent flow (`dmAgent.ts`) -/

/-- The parts of the `ai.generate` response consumed by `dmAgentFlow`:
`response.text` (empty string when the model produced no text) and the
names of the tool requests it issued. -/
structure GenerateResponse where
  text : String
  toolRequestNames : List String
deriving DecidableEq, Repr

/-- `DmAgentOutput` from `src/flows/dmAgent.ts` (`DmAgentOutputSchema`). -/
structure DmAgentOutput where
  success : Bool
  thinking : Option String := none
  actionsExecuted : List String
  error : Option String := none
deriving DecidableEq, Repr

/-- `dmAgentFlow` from `src/flows/dmAgent.ts` (lines 96-185), abstracted
over the outcome of the `ai.generate` call (which covers the model
invocation and the tool executions it triggers).  The whole body runs in a
try/catch: on success it reports the tool names invoked (`response.text ||
undefined` maps an empty text to `none`), and on any thrown error it
returns `success := false` with no actions and the error message — it never
rethrows. -/
def dmAgentFlow (generated : Except String GenerateResponse) :
    DmAgentOutput :=
  match generated with
  | .ok r =>
    { success := true
      thinking := if r.text = "" then none else some r.text
      actionsExecuted := r.toolRequestNames }
  | .error e =>
    { success := false, actionsExecuted := [], error := some e }

/-! ### Message processor (`processMessage.ts`) -/

/-- Result of one `processMessage` invocation: the HTTP response returned
to Cloud Tasks, the post-invocation store state, and whether a follow-up
dispatch was scheduled. -/
structure ProcessOutcome where
  status : Nat
  body : String
  store : Store
  scheduledFollowUp : Bool
deriving Repr

/-- The core of `processMessage` from `src/functions/processMessage.ts`
(lines 159-241), entered after OIDC validation and payload parsing
succeed.  `agentRun` abstracts the outcome of the fallible prefix of the
`try` block — the history fetch, the profile fetch and the `dmAgentFlow`
call: `.ok` carries the agent's output, `.error` a thrown message.

On an empty claim it exits with 200.  On an agent success it calls
`markProcessedAndCheckPending`; if that release returns, a follow-up is
scheduled when pending arrivals exist (a failure of that scheduling call is
caught and only logged — the store state is not rolled back).  Any throw
inside the `try` block — the agent prefix or the release transaction's
read-after-write rejection alike — lands in the `catch`, which resets the
claimed messages to `PENDING` via the batched `updateMessageStatus` and
returns 500 so that Cloud Tasks retries the dispatch. -/
def processMessage (nowClaim nowFinish : Nat)
    (agentRun : Except String DmAgentOutput) (s : Store) : ProcessOutcome :=
  if ((claimPendingMessages nowClaim s).1).isEmpty then
    { status := 200, body := "No messages to process",
      store := (claimPendingMessages nowClaim s).2,
      scheduledFollowUp := false }
  else
    match agentRun with
    | .ok _ =>
      match markProcessedAndCheckPending nowFinish
          ((claimPendingMessages nowClaim s).1.map (fun m => m.id))
          (claimPendingMessages nowClaim s).2 with
      | .ok (newPending, s₂) =>
        { status := 200, body := "OK", store := s₂,
          scheduledFollowUp := !newPending.isEmpty }
      | .error _ =>
        { status := 500, body := "Processing failed",
          store := updateMessageStatus nowFinish
            ((claimPendingMessages nowClaim s).1.map (fun m => m.id))
            .pending none (claimPendingMessages nowClaim s).2,
          scheduledFollowUp := false }
    | .error _ =>
      { status := 500, body := "Processing failed",
        store := updateMessageStatus nowFinish
          ((claimPendingMessages nowClaim s).1.map (fun m => m.id))
          .pending none (claimPendingMessages nowClaim s).2,
        scheduledFollowUp := false }

/-! ### Cooldown tool (`check_last_notification`, firestore tools 177-205) -/

/-- `SEVEN_DAYS_MS` from the Firestore tools module. -/
def SEVEN_DAYS_MS : Int := 7 * 24 * 60 * 60 * 1000

/-- Output of the `check_last_notification` tool. -/
structure CooldownCheck where
  canNotify : Bool
  lastNotification : Option Int := none
  daysSinceLastNotification : Option Int := none
deriving DecidableEq, Repr

/-- `checkLastNotification` from the Firestore tools module (lines
177-205): when the user document is missing or its `lastNotification`
field is falsy (absent, or the number `0`), report `canNotify := true`;
otherwise report `canNotify := now - last > SEVEN_DAYS_MS` together with
the stored timestamp and the floored day count (`Math.floor` is floor
division). -/
def checkLastNotification (now : Int) (stored : Option Int) : CooldownCheck :=
  match stored with
  | none => { canNotify := true }
  | some last =>
    if last = 0 then { canNotify := true }
    else
      { canNotify := decide (now - last > SEVEN_DAYS_MS)
        lastNotification := some last
        daysSinceLastNotification :=
          some (Int.fdiv (now - last) (24 * 60 * 60 * 1000)) }

/-! ### Platform history fetch (`instagram.ts`, `getConversationMessages`) -/

/-- One entry of the Graph API `ConversationMessagesResponse.data` array.
`created_time` is the message's creation instant (an ISO timestamp in the
API, modelled as a comparable ordinal). -/
structure GraphApiMessage where
  id : String
  message : String
  fromId : String
  created_time : Nat
deriving DecidableEq, Repr

/-- `InstagramThreadMessage` from `src/services/instagram.ts`. -/
structure InstagramThreadMessage where
  id : String
  text : String
  fromId : String
  createdTime : Nat
deriving DecidableEq, Repr

/-- The transformation step of `getConversationMessages` from
`src/services/instagram.ts` (lines 293-305): the fetched page of messages
(returned by the Graph API newest-first) is mapped onto
`InstagramThreadMessage` and reversed into chronological order.  The
earlier steps of the function (conversation lookup, HTTP fetch with retry)
only produce `data`; an absent conversation yields an empty list. -/
def getConversationMessages (data : List GraphApiMessage) :
    List InstagramThreadMessage :=
  (data.map (fun m =>
    { id := m.id, text := m.message, fromId := m.fromId,
      createdTime := m.created_time })).reverse

/-! ### Concrete fixtures, used to instantiate the theorems below -/

/-- A concrete inbound message payload. -/
def sampleMessage (i : String) (t : Nat) : InstagramMessage :=
  { id := i, senderId := "user-1", recipientId := "page-1", text := "hi",
    timestamp := t, messageType := .text }

/-- A concrete stored message document. -/
def sampleStored (i : String) (t : Nat) (st : MessageStatus) :
    StoredMessage :=
  { id := i, conversationId := "thread-1", message := sampleMessage i t,
    status := st, createdAt := t, updatedAt := t }

/-- A thread store with an outstanding claim (one `PROCESSING` message). -/
def sampleStoreBusy : Store :=
  [sampleStored "m1" 1 .processing, sampleStored "m2" 2 .pending]

/-- A thread store with two pending messages and distinct ids. -/
def sampleStoreIdle : Store :=
  [sampleStored "m1" 1 .pending, sampleStored "m2" 2 .pending]

/-- A pending message arriving during a claim window. -/
def sampleArrivals : Store := [sampleStored "m3" 3 .pending]

/-- A Graph API history page, newest first as the API returns it. -/
def sampleGraphData : List GraphApiMessage :=
  [{ id := "g2", message := "later", fromId := "user-1", created_time := 20 },
   { id := "g1", message := "earlier", fromId := "user-1", created_time := 10 }]

/-- A thread store holding already-processed history and one pending item. -/
def sampleStoreHistory : Store :=
  [sampleStored "h1" 1 .processed, sampleStored "h2" 2 .processed,
   sampleStored "p1" 3 .pending]

/-! ## Store lemmas -/

theorem mem_queryByStatusAsc {st : MessageStatus} {s : Store}
    {m : StoredMessage} :
    m ∈ queryByStatusAsc st s ↔ m ∈ s ∧ m.status = st := by
  unfold queryByStatusAsc
  rw [(List.perm_insertionSort _ _).mem_iff, List.mem_filter]
  simp

theorem queryByStatusAsc_ne_nil {st : MessageStatus} {s : Store}
    {m : StoredMessage} (hm : m ∈ s) (hst : m.status = st) :
    queryByStatusAsc st s ≠ [] := by
  intro h
  have : m ∈ queryByStatusAsc st s := mem_queryByStatusAsc.mpr ⟨hm, hst⟩
  simp [h] at this

theorem anyWithStatus_iff {st : MessageStatus} {s : Store} :
    anyWithStatus st s = true ↔ ∃ m ∈ s, m.status = st := by
  unfold anyWithStatus
  simp [List.any_eq_true]

/-- The no-op branch of `claimPendingMessages`: an outstanding `PROCESSING`
message makes the claim return the empty list with the store untouched. -/
theorem claimPendingMessages_of_processing {s : Store} (now : Nat)
    (h : ∃ m ∈ s, m.status = MessageStatus.processing) :
    claimPendingMessages now s = ([], s) := by
  unfold claimPendingMessages
  rw [if_pos (anyWithStatus_iff.mpr h)]

/-- A successful (non-empty) claim leaves a `PROCESSING` message behind. -/
theorem claimPendingMessages_snd_busy {s : Store} {now : Nat}
    (h : (claimPendingMessages now s).1 ≠ []) :
    ∃ m ∈ (claimPendingMessages now s).2,
      m.status = MessageStatus.processing := by
  unfold claimPendingMessages at *
  by_cases hp : anyWithStatus .processing s = true
  · simp [hp] at h
  · rw [if_neg hp] at h ⊢
    by_cases he : (queryByStatusAsc .pending s).isEmpty
    · simp [he] at h
    · rw [if_neg he] at h ⊢
      have hne : queryByStatusAsc .pending s ≠ [] := by
        simpa [List.isEmpty_iff] using he
      obtain ⟨m, hmem⟩ := List.exists_mem_of_ne_nil _ hne
      have hm := mem_queryByStatusAsc.mp hmem
      refine ⟨{ m with status := .processing, updatedAt := now }, ?_, rfl⟩
      simp only [List.mem_map]
      exact ⟨m, hm.1, by rw [if_pos hm.2]⟩

/-- Claim C1: at most one claim can be outstanding per conversation.  A
claim transaction that finds any `PROCESSING` message returns the empty
list without changing state, and of two claims executed before either
release, at most one returns a non-empty message set. -/
theorem claim_single_outstanding (s : Store) (now₁ now₂ : Nat) :
    ((∃ m ∈ s, m.status = MessageStatus.processing) →
      claimPendingMessages now₁ s = ([], s)) ∧
    ((claimPendingMessages now₁ s).1 = [] ∨
      (claimPendingMessages now₂ (claimPendingMessages now₁ s).2).1 = []) := by
  refine ⟨claimPendingMessages_of_processing now₁, ?_⟩
  by_cases h : (claimPendingMessages now₁ s).1 = []
  · exact Or.inl h
  · refine Or.inr ?_
    rw [claimPendingMessages_of_processing now₂
      (claimPendingMessages_snd_busy h)]

/-- Witness for C1 on a concrete busy store. -/
theorem claim_single_outstanding_witness :
    (∃ m ∈ sampleStoreBusy, m.status = MessageStatus.processing) ∧
    claimPendingMessages 10 sampleStoreBusy = ([], sampleStoreBusy) :=
  ⟨by decide, (claim_single_outstanding sampleStoreBusy 10 11).1 (by decide)⟩

/-- The successful-claim branch of `claimPendingMessages` in closed form. -/
theorem claimPendingMessages_eq_of_not_busy {s : Store} (now : Nat)
    (hp : anyWithStatus .processing s = false)
    (hq : queryByStatusAsc .pending s ≠ []) :
    claimPendingMessages now s = (queryByStatusAsc .pending s,
      s.map (fun m =>
        if m.status = .pending then
          { m with status := .processing, updatedAt := now }
        else m)) := by
  unfold claimPendingMessages
  rw [if_neg (by simp [hp]), if_neg (by simpa [List.isEmpty_iff] using hq)]

/-- The empty-pending branch of `claimPendingMessages` in closed form. -/
theorem claimPendingMessages_eq_of_no_pending {s : Store} (now : Nat)
    (hq : queryByStatusAsc .pending s = []) :
    claimPendingMessages now s = ([], s) := by
  unfold claimPendingMessages
  by_cases hp : anyWithStatus .processing s = true
  · rw [if_pos (by simp [hp])]
  · rw [if_neg (by simp [hp]), if_pos (by simp [List.isEmpty_iff, hq])]

/-- Claim C2 (code-bug evidence): the no-lost-messages property requires
the release transaction to return the messages still pending, but the
source's `markProcessedAndCheckPending` buffers its `transaction.update`
writes before its `transaction.get` of the pending query, which the
firebase-admin client rejects.  For any non-empty id list the release
throws the read-after-write error instead of returning (only the
degenerate empty-id call, which buffers no write, reads legally).
Concretely, releasing the claim taken on the idle two-message store — its
claimed id list is non-empty — while a third message arrived mid-window
errors instead of reporting that arrival as still pending. -/
theorem release_read_after_write_bug (now : Nat) (i : String)
    (rest : List String) (s : Store) :
    markProcessedAndCheckPending now (i :: rest) s
      = Except.error READ_AFTER_WRITE_ERROR_MSG ∧
    markProcessedAndCheckPending now [] s
      = Except.ok (queryByStatusAsc .pending s, s) ∧
    (claimPendingMessages 10 sampleStoreIdle).1.map (fun x => x.id) ≠ [] ∧
    markProcessedAndCheckPending 20
      ((claimPendingMessages 10 sampleStoreIdle).1.map (fun x => x.id))
      ((claimPendingMessages 10 sampleStoreIdle).2 ++ sampleArrivals)
      = Except.error READ_AFTER_WRITE_ERROR_MSG :=
  ⟨rfl, rfl, by decide, rfl⟩

/-! ## Retry safety (C3)

A failed processing pass resets every claimed message to `PENDING`, so the
post-abort store agrees with the pre-claim store on the fields the claim
transaction inspects: ids, creation timestamps and statuses.  `SameKey`
captures that agreement pointwise; the lemmas push it through filtering,
sorting and the status queries. -/

/-- Agreement on the fields `claimPendingMessages` inspects. -/
def SameKey (a b : StoredMessage) : Prop :=
  a.id = b.id ∧ a.createdAt = b.createdAt ∧ a.status = b.status

theorem sameKey_refl (a : StoredMessage) : SameKey a a := ⟨rfl, rfl, rfl⟩

theorem forall₂_sameKey_map {g : StoredMessage → StoredMessage}
    {l : List StoredMessage} (h : ∀ m ∈ l, SameKey m (g m)) :
    List.Forall₂ SameKey l (l.map g) := by
  induction l with
  | nil => constructor
  | cons a t ih =>
    exact List.Forall₂.cons (h a (List.Mem.head t))
      (ih fun m hm => h m (List.Mem.tail _ hm))

theorem forall₂_orderedInsert {a a' : StoredMessage}
    {l l' : List StoredMessage} (ha : SameKey a a')
    (hl : List.Forall₂ SameKey l l') :
    List.Forall₂ SameKey (List.orderedInsert createdLe a l)
      (List.orderedInsert createdLe a' l') := by
  induction hl with
  | nil => exact List.Forall₂.cons ha List.Forall₂.nil
  | @cons b b' t t' hb ht ih =>
    simp only [List.orderedInsert]
    by_cases h : createdLe a b
    · rw [if_pos h, if_pos (show createdLe a' b' by
        unfold createdLe at h ⊢; rw [← ha.2.1, ← hb.2.1]; exact h)]
      exact List.Forall₂.cons ha (List.Forall₂.cons hb ht)
    · rw [if_neg h, if_neg (show ¬createdLe a' b' by
        unfold createdLe at h ⊢; rw [← ha.2.1, ← hb.2.1]; exact h)]
      exact List.Forall₂.cons hb ih

theorem forall₂_insertionSort {l l' : List StoredMessage}
    (hl : List.Forall₂ SameKey l l') :
    List.Forall₂ SameKey (List.insertionSort createdLe l)
      (List.insertionSort createdLe l') := by
  induction hl with
  | nil => constructor
  | cons ha _ ih => exact forall₂_orderedInsert ha ih

theorem forall₂_filter_status (st : MessageStatus) {l l' : List StoredMessage}
    (hl : List.Forall₂ SameKey l l') :
    List.Forall₂ SameKey (l.filter (fun m => m.status = st))
      (l'.filter (fun m => m.status = st)) := by
  induction hl with
  | nil => constructor
  | @cons a a' t t' ha ht ih =>
    by_cases h : a.status = st
    · have h' : a'.status = st := by rw [← ha.2.2]; exact h
      rw [List.filter_cons_of_pos (by simpa using h),
        List.filter_cons_of_pos (by simpa using h')]
      exact List.Forall₂.cons ha ih
    · have h' : ¬a'.status = st := by rw [← ha.2.2]; exact h
      rw [List.filter_cons_of_neg (by simpa using h),
        List.filter_cons_of_neg (by simpa using h')]
      exact ih

theorem forall₂_queryByStatusAsc (st : MessageStatus)
    {l l' : List StoredMessage} (hl : List.Forall₂ SameKey l l') :
    List.Forall₂ SameKey (queryByStatusAsc st l) (queryByStatusAsc st l') :=
  forall₂_insertionSort (forall₂_filter_status st hl)

theorem forall₂_map_id_eq {l l' : List StoredMessage}
    (hl : List.Forall₂ SameKey l l') :
    l.map (fun m => m.id) = l'.map (fun m => m.id) := by
  induction hl with
  | nil => rfl
  | cons ha _ ih => simp only [List.map_cons, ha.1, ih]

theorem forall₂_anyWithStatus (st : MessageStatus)
    {l l' : List StoredMessage} (hl : List.Forall₂ SameKey l l') :
    anyWithStatus st l = anyWithStatus st l' := by
  induction hl with
  | nil => rfl
  | cons ha _ ih =>
    simp only [anyWithStatus, List.any_cons] at ih ⊢
    rw [ha.2.2, ih]

/-- The error branch of `processMessage` in closed form. -/
theorem processMessage_error_eq (now₁ now₂ : Nat) (e : String) (s : Store)
    (h : (claimPendingMessages now₁ s).1 ≠ []) :
    processMessage now₁ now₂ (Except.error e) s =
      { status := 500, body := "Processing failed",
        store := updateMessageStatus now₂
          ((claimPendingMessages now₁ s).1.map (fun m => m.id))
          .pending none (claimPendingMessages now₁ s).2,
        scheduledFollowUp := false } := by
  unfold processMessage
  rw [if_neg (by simpa [List.isEmpty_iff] using h)]

/-- Claim C3: retry safety of the processing pass.  If the work after a
successful claim throws, the pass responds 500 (so Cloud Tasks retries) and
every claimed message is back in `PENDING`; a subsequent claim returns the
same messages. -/
theorem processMessage_retry_safety (s₀ : Store) (now₁ now₂ now₃ : Nat)
    (e : String) (hids : (s₀.map (fun m => m.id)).Nodup)
    (hne : (claimPendingMessages now₁ s₀).1 ≠ []) :
    (processMessage now₁ now₂ (Except.error e) s₀).status = 500 ∧
    (∀ m ∈ (processMessage now₁ now₂ (Except.error e) s₀).store,
      m.id ∈ (claimPendingMessages now₁ s₀).1.map (fun x => x.id) →
      m.status = MessageStatus.pending) ∧
    ((claimPendingMessages now₃
        (processMessage now₁ now₂ (Except.error e) s₀).store).1.map
          (fun x => x.id))
      = (claimPendingMessages now₁ s₀).1.map (fun x => x.id) := by
  by_cases hp : anyWithStatus .processing s₀ = true
  · exact absurd (by
      rw [claimPendingMessages_of_processing now₁ (anyWithStatus_iff.mp hp)])
      hne
  · have hp' : anyWithStatus .processing s₀ = false :=
      Bool.eq_false_iff.mpr hp
    by_cases hq : queryByStatusAsc .pending s₀ = []
    · exact absurd (by rw [claimPendingMessages_eq_of_no_pending now₁ hq]) hne
    · have hclaim := claimPendingMessages_eq_of_not_busy now₁ hp' hq
      have hrw := processMessage_error_eq now₁ now₂ e s₀ hne
      -- the per-document effect of claim followed by abort
      have hkey : ∀ m ∈ s₀,
          (m.id ∈ (queryByStatusAsc .pending s₀).map (fun x => x.id) ↔
            m.status = .pending) := by
        intro m hm
        constructor
        · intro hid
          obtain ⟨m', hm', hid'⟩ := List.mem_map.mp hid
          have h1 := mem_queryByStatusAsc.mp hm'
          have : m' = m := List.inj_on_of_nodup_map hids h1.1 hm hid'
          rw [← this]; exact h1.2
        · intro hst
          exact List.mem_map.mpr ⟨m, mem_queryByStatusAsc.mpr ⟨hm, hst⟩, rfl⟩
      have hstore : (processMessage now₁ now₂ (Except.error e) s₀).store
          = s₀.map (fun m =>
              if (if m.status = .pending then
                    { m with status := .processing, updatedAt := now₁ }
                  else m).id ∈
                  (queryByStatusAsc .pending s₀).map (fun x => x.id) then
                { (if m.status = .pending then
                    { m with status := .processing, updatedAt := now₁ }
                   else m) with
                  status := MessageStatus.pending
                  updatedAt := now₂
                  processedAt :=
                    if MessageStatus.pending = .processed then some now₂
                    else (if m.status = .pending then
                      { m with status := .processing, updatedAt := now₁ }
                        else m).processedAt
                  error := (if m.status = .pending then
                    { m with status := .processing, updatedAt := now₁ }
                      else m).error }
              else (if m.status = .pending then
                { m with status := .processing, updatedAt := now₁ }
                  else m)) := by
        rw [hrw]
        simp only [hclaim, updateMessageStatus, List.map_map]
        rfl
      have hpoint : ∀ m ∈ s₀, SameKey m
          ((fun m =>
              if (if m.status = .pending then
                    { m with status := .processing, updatedAt := now₁ }
                  else m).id ∈
                  (queryByStatusAsc .pending s₀).map (fun x => x.id) then
                { (if m.status = .pending then
                    { m with status := .processing, updatedAt := now₁ }
                   else m) with
                  status := MessageStatus.pending
                  updatedAt := now₂
                  processedAt :=
                    if MessageStatus.pending = .processed then some now₂
                    else (if m.status = .pending then
                      { m with status := .processing, updatedAt := now₁ }
                        else m).processedAt
                  error := (if m.status = .pending then
                    { m with status := .processing, updatedAt := now₁ }
                      else m).error }
              else (if m.status = .pending then
                { m with status := .processing, updatedAt := now₁ }
                  else m)) m) := by
        intro m hm
        by_cases hst : m.status = .pending
        · have hid : m.id ∈ (queryByStatusAsc .pending s₀).map (fun x => x.id) :=
            (hkey m hm).mpr hst
          simp only [if_pos hst]
          rw [if_pos (by simpa using hid)]
          exact ⟨rfl, rfl, by rw [hst]⟩
        · have hid : m.id ∉ (queryByStatusAsc .pending s₀).map (fun x => x.id) :=
            fun h => hst ((hkey m hm).mp h)
          simp only [if_neg hst]
          rw [if_neg (by simpa using hid)]
          exact sameKey_refl m
      have hforall : List.Forall₂ SameKey s₀
          ((processMessage now₁ now₂ (Except.error e) s₀).store) := by
        rw [hstore]; exact forall₂_sameKey_map hpoint
      refine ⟨by rw [hrw], ?_, ?_⟩
      · -- claimed ids are back in PENDING
        intro m hm hid
        rw [hstore] at hm
        obtain ⟨m₀, hm₀, hmap⟩ := List.mem_map.mp hm
        by_cases hst : m₀.status = .pending
        · have hid₀ : m₀.id ∈ (queryByStatusAsc .pending s₀).map (fun x => x.id) :=
            (hkey m₀ hm₀).mpr hst
          rw [← hmap]
          simp only [if_pos hst]
          rw [if_pos (by simpa using hid₀)]
        · have hid₀ : m₀.id ∉ (queryByStatusAsc .pending s₀).map (fun x => x.id) :=
            fun h => hst ((hkey m₀ hm₀).mp h)
          exfalso
          apply hid₀
          have hmeq : m = m₀ := by
            rw [← hmap]
            simp only [if_neg hst]
            rw [if_neg (by simpa using hid₀)]
          rw [hclaim] at hid
          rw [← hmeq]; exact hid
      · -- a second claim returns the same message ids
        have hany : anyWithStatus .processing
            ((processMessage now₁ now₂ (Except.error e) s₀).store) = false := by
          rw [← forall₂_anyWithStatus .processing hforall]; exact hp'
        have hquery := forall₂_queryByStatusAsc .pending hforall
        have hq' : queryByStatusAsc .pending
            ((processMessage now₁ now₂ (Except.error e) s₀).store) ≠ [] := by
          intro hnil
          apply hq
          have := hquery.length_eq
          rw [hnil, List.length_nil, List.length_eq_zero] at this
          exact this
        rw [claimPendingMessages_eq_of_not_busy now₃ hany hq', hclaim]
        exact (forall₂_map_id_eq hquery).symm

/-- Witness for C3 on a concrete idle store with two pending messages. -/
theorem processMessage_retry_safety_witness :
    ((sampleStoreIdle.map (fun m => m.id)).Nodup ∧
      (claimPendingMessages 10 sampleStoreIdle).1 ≠ []) ∧
    ((processMessage 10 20 (Except.error "model call failed")
        sampleStoreIdle).status = 500 ∧
    (∀ m ∈ (processMessage 10 20 (Except.error "model call failed")
        sampleStoreIdle).store,
      m.id ∈ (claimPendingMessages 10 sampleStoreIdle).1.map (fun x => x.id) →
      m.status = MessageStatus.pending) ∧
    ((claimPendingMessages 30
        (processMessage 10 20 (Except.error "model call failed")
          sampleStoreIdle).store).1.map (fun x => x.id))
      = (claimPendingMessages 10 sampleStoreIdle).1.map (fun x => x.id)) :=
  ⟨⟨by decide, by decide⟩,
    processMessage_retry_safety sampleStoreIdle 10 20 30 "model call failed"
      (by decide) (by decide)⟩

/-! ## Delayed dispatcher (C4, C5) -/

/-- Counterexample to claim C4: the Cloud Tasks job name does not involve a
time bucket.  Two `scheduleProcessing` calls for the same thread at times
falling in different debounce windows (here one hour apart, with the window
taken as the maximal 15 s debounce delay) build tasks with the *same* name,
contradicting "two schedule calls in different debounce windows produce
different job names". -/
theorem buildTask_name_same_across_windows :
    (buildTask "projects/p/locations/l/queues/q" "https://x.example/process"
      "user-42" 0 5).name
      = (buildTask "projects/p/locations/l/queues/q" "https://x.example/process"
        "user-42" 3600000 15).name ∧
    (0 : Nat) / (MAX_DELAY_SECONDS * 1000) ≠ 3600000 / (MAX_DELAY_SECONDS * 1000) :=
  ⟨rfl, by decide⟩

/-- Claim C4 amended: the deduplication key is a deterministic function of
the conversation key alone — the queue path plus the sanitised thread id —
and is identical for schedule calls at any two times and delays. -/
theorem buildTask_name_thread_only (parent url threadId : String)
    (now₁ now₂ d₁ d₂ : Nat) :
    (buildTask parent url threadId now₁ d₁).name
      = (buildTask parent url threadId now₂ d₂).name ∧
    (buildTask parent url threadId now₁ d₁).name
      = parent ++ "/tasks/process-" ++ sanitizeThreadId threadId :=
  ⟨rfl, rfl⟩

/-- Claim C5: `scheduleProcessing` treats an `ALREADY_EXISTS` rejection of
the task-creation call as success, rethrows every other enqueue failure to
the caller, and succeeds on a clean enqueue. -/
theorem scheduleProcessing_error_policy (msg : String) (code : Nat)
    (h : code ≠ GRPC_ALREADY_EXISTS) :
    scheduleProcessing false (.failed GRPC_ALREADY_EXISTS msg) = .ok () ∧
    scheduleProcessing false (.failed code msg) = .error (code, msg) ∧
    scheduleProcessing false .created = .ok () := by
  refine ⟨rfl, ?_, rfl⟩
  simp [scheduleProcessing, h]

/-- Witness for C5 with the gRPC `INTERNAL` code 13. -/
theorem scheduleProcessing_error_policy_witness :
    ((13 : Nat) ≠ GRPC_ALREADY_EXISTS) ∧
    (scheduleProcessing false (.failed GRPC_ALREADY_EXISTS "enqueue failed")
        = .ok () ∧
      scheduleProcessing false (.failed 13 "enqueue failed")
        = .error (13, "enqueue failed") ∧
      scheduleProcessing false .created = .ok ()) :=
  ⟨by decide, scheduleProcessing_error_policy "enqueue failed" 13 (by decide)⟩

/-! ## Webhook ingress (C6, C8) -/

/-- Counterexample to claim C6: outside emulator mode, a POST request with
*no* shared secret configured is not rejected — the handler skips signature
validation entirely (the gate `INSTAGRAM_APP_SECRET && !emulator` is false)
and the request proceeds to storage and scheduling even without any
signature header. -/
theorem webhook_missing_secret_skips_validation :
    webhookPostPassesSignatureGate (fun _ body => body) "" false
      "raw-event-body" none = true := rfl

/-- Claim C6 amended: outside emulator mode and with the shared secret
configured (non-empty), a POST request reaches storage and scheduling iff
its signature header is exactly `"sha256=" ++ HMAC(secret, rawBody)`;
requests with a missing or mismatched signature are rejected.  When the
secret is missing, or in emulator mode, verification is skipped and every
request passes. -/
theorem webhook_signature_gate (hmac : String → String → String)
    (secret body : String) (sig : Option String) (hs : secret ≠ "") :
    (webhookPostPassesSignatureGate hmac secret false body sig = true ↔
      sig = some ("sha256=" ++ hmac secret body)) ∧
    (∀ sig', webhookPostPassesSignatureGate hmac "" false body sig' = true) ∧
    (∀ sig', webhookPostPassesSignatureGate hmac secret true body sig' = true) := by
  refine ⟨?_, fun sig' => by simp [webhookPostPassesSignatureGate],
    fun sig' => by simp [webhookPostPassesSignatureGate]⟩
  have hgate : webhookPostPassesSignatureGate hmac secret false body sig
      = validateSignature hmac secret body sig := by
    simp [webhookPostPassesSignatureGate, hs]
  rw [hgate]
  have hlen : ∀ x : String, "" ≠ "sha256=" ++ x := by
    intro x hx
    have hlx := congrArg String.length hx
    rw [String.length_append] at hlx
    have h7 : "sha256=".length = 7 := rfl
    have h0 : ("" : String).length = 0 := rfl
    omega
  cases sig with
  | none => simp [validateSignature]
  | some v =>
    by_cases hv : v = ""
    · subst hv
      simp [validateSignature, hlen _]
    · have hred : validateSignature hmac secret body (some v)
          = (decide (v.length = ("sha256=" ++ hmac secret body).length) &&
             decide (v = "sha256=" ++ hmac secret body)) := by
        simp [validateSignature, hv, hs]
      rw [hred]
      constructor
      · intro h
        have h2 : v = "sha256=" ++ hmac secret body := by
          simp only [Bool.and_eq_true, decide_eq_true_eq] at h
          exact h.2
        rw [h2]
      · intro h
        have h2 : v = "sha256=" ++ hmac secret body := by
          simpa using h
        simp [h2]

/-- Witness for C6 (amended) with a concrete secret, body and matching
signature header. -/
theorem webhook_signature_gate_witness :
    (("secret" : String) ≠ "") ∧
    ((webhookPostPassesSignatureGate (fun s b => s ++ b) "secret" false
        "payload" (some ("sha256=" ++ ("secret" ++ "payload"))) = true ↔
      some ("sha256=" ++ ("secret" ++ "payload"))
        = some ("sha256=" ++ ("secret" ++ "payload"))) ∧
    (∀ sig', webhookPostPassesSignatureGate (fun s b => s ++ b) "" false
        "payload" sig' = true) ∧
    (∀ sig', webhookPostPassesSignatureGate (fun s b => s ++ b) "secret" true
        "payload" sig' = true)) :=
  ⟨by decide,
    webhook_signature_gate (fun s b => s ++ b) "secret" "payload"
      (some ("sha256=" ++ ("secret" ++ "payload"))) (by decide)⟩

/-- Claim C8: the GET verification handshake echoes the challenge with
status 200 exactly when the mode is `"subscribe"` and the token matches the
configured value, and responds 403 `"Forbidden"` in every other case. -/
theorem webhook_handshake (verifyToken : String) (mode token : Option String)
    (c : String) :
    (handleWebhookVerification verifyToken mode token (some c)
        = { status := 200, body := c } ↔
      (mode = some "subscribe" ∧ token = some verifyToken)) ∧
    (¬(mode = some "subscribe" ∧ token = some verifyToken) →
      handleWebhookVerification verifyToken mode token (some c)
        = { status := 403, body := "Forbidden" }) := by
  unfold handleWebhookVerification
  by_cases h : mode = some "subscribe" ∧ token = some verifyToken
  · rw [if_pos h]
    exact ⟨⟨fun _ => h, fun _ => rfl⟩, fun hc => absurd h hc⟩
  · rw [if_neg h]
    refine ⟨⟨fun heq => ?_, fun hc => absurd hc h⟩, fun _ => rfl⟩
    have h43 : (403 : Nat) = 200 := congrArg HttpResponse.status heq
    exact absurd h43 (by decide)

/-- Witness for C8 with the spec's own example challenge. -/
theorem webhook_handshake_witness :
    (handleWebhookVerification "tok" (some "subscribe") (some "tok")
        (some "abc123") = { status := 200, body := "abc123" } ↔
      (some "subscribe" = some "subscribe" ∧
        some "tok" = some ("tok" : String))) ∧
    (¬(some "subscribe" = some "subscribe" ∧
        some "tok" = some ("tok" : String)) →
      handleWebhookVerification "tok" (some "subscribe") (some "tok")
        (some "abc123") = { status := 403, body := "Forbidden" }) :=
  webhook_handshake "tok" (some "subscribe") (some "tok") "abc123"

/-! ## Agent flow totality (C10) -/

/-- The empty-claim branch of `processMessage` in closed form. -/
theorem processMessage_empty_eq (now₁ now₂ : Nat)
    (ar : Except String DmAgentOutput) (s : Store)
    (h : (claimPendingMessages now₁ s).1 = []) :
    processMessage now₁ now₂ ar s =
      { status := 200, body := "No messages to process",
        store := (claimPendingMessages now₁ s).2,
        scheduledFollowUp := false } := by
  unfold processMessage
  rw [if_pos (by simp [List.isEmpty_iff, h])]

/-- The agent-success branch of `processMessage` in closed form: with a
non-empty claim the claimed id list is non-empty, so the release
transaction throws its read-after-write rejection; the catch resets the
claimed ids to `PENDING` and the pass responds 500. -/
theorem processMessage_ok_eq (now₁ now₂ : Nat) (out : DmAgentOutput)
    (s : Store) (h : (claimPendingMessages now₁ s).1 ≠ []) :
    processMessage now₁ now₂ (Except.ok out) s =
      { status := 500, body := "Processing failed",
        store := updateMessageStatus now₂
          ((claimPendingMessages now₁ s).1.map (fun m => m.id))
          .pending none (claimPendingMessages now₁ s).2,
        scheduledFollowUp := false } := by
  unfold processMessage
  rw [if_neg (by simpa [List.isEmpty_iff] using h)]
  cases hmap : (claimPendingMessages now₁ s).1.map (fun m => m.id) with
  | nil => exact absurd (List.map_eq_nil_iff.mp hmap) h
  | cons i rest => rfl

/-- Claim C10 (code-bug evidence): `dmAgentFlow` is indeed total with
respect to errors — a thrown model or tool error is caught and reported as
`success := false` with no actions and the error message — but the claimed
consequence fails on the source: because the release transaction always
throws its read-after-write rejection, a processing pass with a non-empty
claim resets the claimed messages to `PENDING` and responds 500, behaving
exactly as on an agent failure, instead of marking them `PROCESSED`. -/
theorem dmAgentFlow_total_but_release_throws (e : String)
    (g : Except String GenerateResponse) (s : Store) (now₁ now₂ : Nat) :
    dmAgentFlow (Except.error e)
      = { success := false, actionsExecuted := [], error := some e } ∧
    ((claimPendingMessages now₁ s).1 ≠ [] →
      (processMessage now₁ now₂ (Except.ok (dmAgentFlow g)) s).status = 500 ∧
      processMessage now₁ now₂ (Except.ok (dmAgentFlow g)) s
        = processMessage now₁ now₂ (Except.error e) s ∧
      (∀ m ∈ (processMessage now₁ now₂ (Except.ok (dmAgentFlow g)) s).store,
        m.id ∈ (claimPendingMessages now₁ s).1.map (fun x => x.id) →
        m.status = MessageStatus.pending)) := by
  refine ⟨rfl, fun h => ?_⟩
  have hok := processMessage_ok_eq now₁ now₂ (dmAgentFlow g) s h
  have herr := processMessage_error_eq now₁ now₂ e s h
  refine ⟨by rw [hok], by rw [hok, herr], ?_⟩
  intro m hm hid
  rw [hok] at hm
  simp only [updateMessageStatus] at hm
  obtain ⟨m₀, _, hmap⟩ := List.mem_map.mp hm
  by_cases hin : m₀.id ∈ (claimPendingMessages now₁ s).1.map (fun m => m.id)
  · rw [← hmap]
    rw [if_pos hin]
  · exfalso
    apply hin
    have hmeq : m = m₀ := by rw [← hmap, if_neg hin]
    rw [← hmeq]
    exact hid

/-- Witness for C10 on the concrete idle store: even with a successful
model generation the pass responds 500, identical to the failing pass, and
the claimed messages end up `PENDING`. -/
theorem dmAgentFlow_total_but_release_throws_witness :
    dmAgentFlow (Except.error "rate limited")
      = { success := false, actionsExecuted := [],
          error := some "rate limited" } ∧
    ((claimPendingMessages 10 sampleStoreIdle).1 ≠ []) ∧
    ((processMessage 10 20
        (Except.ok (dmAgentFlow (Except.ok ⟨"done", ["sendInstagramMessage"]⟩)))
        sampleStoreIdle).status = 500 ∧
      processMessage 10 20
        (Except.ok (dmAgentFlow (Except.ok ⟨"done", ["sendInstagramMessage"]⟩)))
        sampleStoreIdle
        = processMessage 10 20 (Except.error "rate limited") sampleStoreIdle ∧
      (∀ m ∈ (processMessage 10 20
          (Except.ok (dmAgentFlow (Except.ok ⟨"done", ["sendInstagramMessage"]⟩)))
          sampleStoreIdle).store,
        m.id ∈ (claimPendingMessages 10 sampleStoreIdle).1.map (fun x => x.id) →
        m.status = MessageStatus.pending)) :=
  ⟨rfl, by decide,
    (dmAgentFlow_total_but_release_throws "rate limited"
      (Except.ok ⟨"done", ["sendInstagramMessage"]⟩) sampleStoreIdle 10 20).2
      (by decide)⟩

/-! ## Notification cooldown (C7) -/

/-- Counterexample to claim C7: with exactly seven days elapsed since the
recorded notification, the tool still reports `canNotify = false` (the code
tests `now - last > SEVEN_DAYS_MS`, a strict inequality), although "fewer
than 7 days have elapsed" is false — so suppression is not equivalent to
"fewer than 7 days elapsed". -/
theorem checkLastNotification_boundary :
    (checkLastNotification (1 + SEVEN_DAYS_MS) (some 1)).canNotify = false ∧
    ¬(1 + SEVEN_DAYS_MS - 1 < SEVEN_DAYS_MS) := by
  constructor
  · decide
  · simp

/-- Claim C7 amended: for a user with a recorded (non-zero) last
notification timestamp, escalation is suppressed (`canNotify = false`) iff
*at most* `SEVEN_DAYS_MS` milliseconds have elapsed — the exact-boundary
instant is still suppressed; a user with no recorded notification always
gets `canNotify = true`. -/
theorem checkLastNotification_cooldown (now last : Int) (h0 : last ≠ 0) :
    ((checkLastNotification now (some last)).canNotify = false ↔
      now - last ≤ SEVEN_DAYS_MS) ∧
    (checkLastNotification now none).canNotify = true := by
  refine ⟨?_, rfl⟩
  simp [checkLastNotification, h0, not_lt]

/-- Witness for C7 (amended): one day after a notification recorded at
epoch millisecond 1, escalation is still suppressed. -/
theorem checkLastNotification_cooldown_witness :
    ((1 : Int) + 86400000 ≠ 0) ∧
    (((checkLastNotification (1 + 86400000) (some (1 + 86400000))).canNotify
          = false ↔
        (1 + 86400000 : Int) - (1 + 86400000) ≤ SEVEN_DAYS_MS) ∧
      (checkLastNotification (1 + 86400000) none).canNotify = true) :=
  ⟨by decide, checkLastNotification_cooldown (1 + 86400000) (1 + 86400000)
    (by decide)⟩

/-! ## Transcript ordering (C9) -/

/-- Claim C9: the assembled transcript is oldest-first.
`getConversationMessages` is the platform page reversed from the API's
newest-first order (and is hence sorted oldest-first whenever the API page
is newest-first); `getConversationHistory` returns the stored `PROCESSED`
messages in ascending `createdAt` order, keeps at most `limit` of them, and
the messages it drops are no newer than any message it keeps. -/
theorem transcript_oldest_first (data : List GraphApiMessage) (limit : Nat)
    (s : Store)
    (hdata : List.Sorted
      (fun a b : GraphApiMessage => b.created_time ≤ a.created_time) data) :
    getConversationMessages data
      = (data.map (fun m =>
          { id := m.id, text := m.message, fromId := m.fromId,
            createdTime := m.created_time })).reverse ∧
    List.Sorted (fun a b : InstagramThreadMessage =>
      a.createdTime ≤ b.createdTime) (getConversationMessages data) ∧
    List.Sorted createdLe (getConversationHistory limit s) ∧
    (getConversationHistory limit s).length ≤ limit ∧
    (∀ m ∈ getConversationHistory limit s,
      m ∈ s ∧ m.status = MessageStatus.processed) ∧
    (∀ m ∈ s, m.status = MessageStatus.processed →
      m ∉ getConversationHistory limit s →
      ∀ k ∈ getConversationHistory limit s, m.createdAt ≤ k.createdAt) := by
  have hsorted : List.Sorted createdGe (queryByStatusDesc .processed s) :=
    List.sorted_insertionSort createdGe
      (s.filter (fun m => m.status = MessageStatus.processed))
  have htake : List.Sorted createdGe
      ((queryByStatusDesc .processed s).take limit) :=
    List.Pairwise.sublist (List.take_sublist limit _) hsorted
  refine ⟨rfl, ?_, ?_, ?_, ?_, ?_⟩
  · unfold getConversationMessages
    refine List.pairwise_reverse.mpr ?_
    exact List.Pairwise.map _ (fun a b h => h) hdata
  · unfold getConversationHistory
    exact List.pairwise_reverse.mpr htake
  · unfold getConversationHistory
    rw [List.length_reverse, List.length_take]
    exact min_le_left _ _
  · intro m hm
    unfold getConversationHistory at hm
    rw [List.mem_reverse] at hm
    have hmem : m ∈ queryByStatusDesc .processed s :=
      List.mem_of_mem_take hm
    unfold queryByStatusDesc at hmem
    rw [(List.perm_insertionSort _ _).mem_iff, List.mem_filter] at hmem
    exact ⟨hmem.1, by simpa using hmem.2⟩
  · intro m hm hst hnot k hk
    have hmL : m ∈ queryByStatusDesc .processed s := by
      unfold queryByStatusDesc
      rw [(List.perm_insertionSort _ _).mem_iff, List.mem_filter]
      exact ⟨hm, by simpa using hst⟩
    have hsplit := List.take_append_drop limit (queryByStatusDesc .processed s)
    have hpw : List.Pairwise createdGe
        ((queryByStatusDesc .processed s).take limit ++
          (queryByStatusDesc .processed s).drop limit) := by
      rw [hsplit]; exact hsorted
    have hcross := (List.pairwise_append.mp hpw).2.2
    rw [← hsplit] at hmL
    rcases List.mem_append.mp hmL with hmt | hmd
    · exfalso
      apply hnot
      unfold getConversationHistory
      rw [List.mem_reverse]
      exact hmt
    · have hkt : k ∈ (queryByStatusDesc .processed s).take limit := by
        have := hk
        unfold getConversationHistory at this
        rw [List.mem_reverse] at this
        exact this
      exact hcross k hkt m hmd

/-- Witness for C9 on a concrete newest-first API page and a concrete store
with processed history. -/
theorem transcript_oldest_first_witness :
    (List.Sorted (fun a b : GraphApiMessage =>
      b.created_time ≤ a.created_time) sampleGraphData) ∧
    (getConversationMessages sampleGraphData
      = (sampleGraphData.map (fun m =>
          { id := m.id, text := m.message, fromId := m.fromId,
            createdTime := m.created_time })).reverse ∧
    List.Sorted (fun a b : InstagramThreadMessage =>
      a.createdTime ≤ b.createdTime) (getConversationMessages sampleGraphData) ∧
    List.Sorted createdLe (getConversationHistory 1 sampleStoreHistory) ∧
    (getConversationHistory 1 sampleStoreHistory).length ≤ 1 ∧
    (∀ m ∈ getConversationHistory 1 sampleStoreHistory,
      m ∈ sampleStoreHistory ∧ m.status = MessageStatus.processed) ∧
    (∀ m ∈ sampleStoreHistory, m.status = MessageStatus.processed →
      m ∉ getConversationHistory 1 sampleStoreHistory →
      ∀ k ∈ getConversationHistory 1 sampleStoreHistory,
        m.createdAt ≤ k.createdAt)) :=
  ⟨by constructor <;> simp,
    transcript_oldest_first sampleGraphData 1 sampleStoreHistory
      (by constructor <;> simp)⟩

end DmManager
